import Mathlib

/-!
Shallow embedding of the record-management logic of the APPIMC application:
the record builder `calculateIMC` and user lookup `checkExistingUser` from
`src/App.js`, the list screen's `loadRecords` / `deleteRecord` from
`src/registro.jsx`, and the chart screen's `loadUserRecords` / `getChartData`
windowing.  JS strings are Lean `String`s, JS numbers are `ℚ` (the values the
form can produce are finite decimals), persisted storage is the `StoredValue`
type distinguishing an absent key, unparseable content and a parsed record
array.
-/

set_option maxRecDepth 20000

namespace AppIMC

/-- Model of JS `String.prototype.trim`: removes leading and trailing
whitespace characters.  The app's strings only ever contain ASCII whitespace,
covered by `Char.isWhitespace`. -/
def jsTrim (s : String) : String :=
  String.mk (((s.data.dropWhile Char.isWhitespace).reverse.dropWhile
    Char.isWhitespace).reverse)

/-- Model of JS `String.prototype.toLowerCase`, character-wise (the app's
names are ASCII, where `Char.toLower` agrees with JS). -/
def jsToLower (s : String) : String :=
  String.mk (s.data.map Char.toLower)

/-- Numeric value of a string of decimal digit characters (most significant
first). -/
def digitsToNat (ds : List Char) : ℕ :=
  ds.foldl (fun acc c => 10 * acc + (c.toNat - 48)) 0

/-- Model of JS `parseFloat` on the strings the numeric form fields can hold:
`handleChangeNum` (`src/App.js`) filters the input to decimal digits with at
most one dot, so no sign, exponent or whitespace ever reaches `parseFloat`.
The longest leading `digits [. digits]` prefix is the value; a string with no
digit in that prefix (e.g. `""` or `"."`) is `NaN`, i.e. `none`. -/
def parseFloatQ (s : String) : Option ℚ :=
  let cs := s.data
  let intDs := cs.takeWhile Char.isDigit
  let rest := cs.drop intDs.length
  let fracDs :=
    match rest with
    | '.' :: r => r.takeWhile Char.isDigit
    | _ => []
  if intDs = [] ∧ fracDs = [] then none
  else some ((digitsToNat intDs : ℚ) + (digitsToNat fracDs : ℚ) / (10 : ℚ) ^ fracDs.length)

/-- `parseNumber` from `src/App.js`: `parseFloat` followed by an `isNaN`
check, `null` (here `none`) when the text does not parse. -/
def parseNumber (text : String) : Option ℚ := parseFloatQ text

/-- Model of JS `Number.prototype.toFixed(2)` for the nonnegative values this
app produces: the decimal string with exactly two fraction digits denoting
the multiple of 1/100 nearest to `q`, ties toward the larger value. -/
def toFixed2 (q : ℚ) : String :=
  let m : ℕ := (⌊q * 100 + 1 / 2⌋).toNat
  let fracPart := m % 100
  let fracStr := if fracPart < 10 then "0" ++ Nat.repr fracPart else Nat.repr fracPart
  Nat.repr (m / 100) ++ "." ++ fracStr

/-- One stored measurement, as built by `calculateIMC` in `src/App.js`:
`id` is `Date.now().toString()`, `imc` the `toFixed(2)` string, `date` the
ISO timestamp string. -/
structure Record where
  id : String
  name : String
  gender : String
  age : ℚ
  weight : ℚ
  height : ℚ
  imc : String
  classification : String
  date : String
  deriving DecidableEq

/-- The classification block of `calculateIMC` (`src/App.js` lines 127-139):
gender-specific BMI thresholds, nested strict `<` comparisons, the `else`
branch covering the `Mujer` gender track. -/
def classifyIMC (gender : String) (imc : ℚ) : String :=
  if gender = "Hombre" then
    if imc < 20 then "Bajo peso"
    else if imc < 25 then "Peso normal"
    else if imc < 30 then "Sobrepeso"
    else "Obesidad"
  else
    if imc < 18 then "Bajo peso"
    else if imc < 24 then "Peso normal"
    else if imc < 29 then "Sobrepeso"
    else "Obesidad"

/-- The record builder `calculateIMC` (`src/App.js`): checks the name for
blankness first, then that the three numeric fields parsed, then positivity;
on success computes `imc = w / (h/100)^2` and builds the record with trimmed
name and the `toFixed(2)` imc string.  `idStr` and `dateStr` stand for the
ambient `Date.now().toString()` and `todayDate.toISOString()` values. -/
def calculateIMC (name gender weight height age idStr dateStr : String) :
    Except String Record :=
  if jsTrim name = "" then
    Except.error "Por favor, ingresa un nombre"
  else
    match parseNumber weight, parseNumber height, parseNumber age with
    | some w, some h, some a =>
      if w ≤ 0 ∨ h ≤ 0 ∨ a ≤ 0 then
        Except.error "Los valores deben ser mayores que cero"
      else
        let heightInMeters := h / 100
        let imc := w / (heightInMeters * heightInMeters)
        Except.ok
          { id := idStr
            name := jsTrim name
            gender := gender
            age := a
            weight := w
            height := h
            imc := toFixed2 imc
            classification := classifyIMC gender imc
            date := dateStr }
    | _, _, _ =>
      Except.error "Por favor, ingresa valores válidos (peso, altura, edad)"

/-- The user lookup `checkExistingUser` (`src/App.js`): a blank entered name
is not looked up; otherwise the first record (in collection order) whose
lowercased stored name equals the lowercased-then-trimmed entered name
supplies the gender. -/
def checkExistingUser (records : List Record) (enteredName : String) :
    Option String :=
  if jsTrim enteredName = "" then none
  else
    (records.find? fun r => jsToLower r.name == jsTrim (jsToLower enteredName)).map
      Record.gender

/-- Content of the persisted `imcRecords` key as each screen observes it:
the key can be absent, hold text that `JSON.parse` rejects (the `corrupt`
case, in which the parse throws and the surrounding `catch` runs), or hold a
parsed array of records. -/
inductive StoredValue where
  | absent
  | corrupt
  | value (rs : List Record)
  deriving DecidableEq

/-- Numeric coercion of a record's `id` string, as JS applies it inside the
comparator `(a, b) => b.id - a.id`; ids are `Date.now().toString()` decimal
numerals. -/
def idNum (r : Record) : ℚ :=
  (parseFloatQ r.id).getD 0

/-- `loadRecords` of the list screen (`src/registro.jsx`): an absent key
yields the empty list, a parsed array is sorted most-recent-first by numeric
id (`sort((a, b) => b.id - a.id)`), and a `JSON.parse` failure is caught and
only logged, leaving the screen's previous `records` state `prev` (initially
`[]`) in place. -/
def loadRecords (prev : List Record) (sv : StoredValue) : List Record :=
  match sv with
  | .absent => []
  | .corrupt => prev
  | .value rs => rs.insertionSort fun a b => idNum b ≤ idNum a

/-- `deleteRecord` of the list screen (`src/registro.jsx`): keeps every
record whose id differs from the deleted one
(`records.filter(record => record.id !== id)`). -/
def deleteRecord (records : List Record) (id : String) : List Record :=
  records.filter fun r => r.id != id

/-- The persistence step at the end of `calculateIMC` (`src/App.js`): load
the stored array (falsy stored text means `[]`), `push` the new record, and
write the whole array back.  When `JSON.parse` throws, the `catch` runs and
nothing is written, so the stored content is unchanged. -/
def saveNewRecord (sv : StoredValue) (newResult : Record) : StoredValue :=
  match sv with
  | .absent => .value [newResult]
  | .corrupt => .corrupt
  | .value rs => .value (rs ++ [newResult])

/-- `loadUserRecords` of the chart screen: keeps the records whose `name` is
exactly `userName` (`record.name === userName`), sorted ascending by parsed
date (`new Date(a.date) - new Date(b.date)`).  The date parser is the
`dateVal` parameter; an absent key yields `[]`, and a parse failure is
caught and only logged, leaving the previous state `prev`. -/
def loadUserRecords (dateVal : String → ℚ) (prev : List Record)
    (sv : StoredValue) (userName : String) : List Record :=
  match sv with
  | .absent => []
  | .corrupt => prev
  | .value rs =>
    (rs.filter fun r => r.name == userName).insertionSort
      fun a b => dateVal a.date ≤ dateVal b.date

/-- The windowing step of `getChartData` (chart screen):
`userRecords.slice(-7)` keeps the last (at most) 7 entries. -/
def recordsToShow (userRecords : List Record) : List Record :=
  userRecords.drop (userRecords.length - 7)

/-- The gender-A (Hombre) classification table exactly as the spec words it:
`imc < 20` underweight, `20 ≤ imc < 25` normal, `25 ≤ imc < 30` overweight,
`imc ≥ 30` obese, with the code's Spanish category strings. -/
def specClassifyHombre (imc : ℚ) : String :=
  if imc < 20 then "Bajo peso"
  else if 20 ≤ imc ∧ imc < 25 then "Peso normal"
  else if 25 ≤ imc ∧ imc < 30 then "Sobrepeso"
  else "Obesidad"

/-- The gender-B (Mujer) classification table exactly as the spec words it:
cut points 18, 24, 29. -/
def specClassifyMujer (imc : ℚ) : String :=
  if imc < 18 then "Bajo peso"
  else if 18 ≤ imc ∧ imc < 24 then "Peso normal"
  else if 24 ≤ imc ∧ imc < 29 then "Sobrepeso"
  else "Obesidad"

theorem classifyIMC_hombre (q : ℚ) :
    classifyIMC "Hombre" q = specClassifyHombre q := by
  unfold classifyIMC specClassifyHombre
  rw [if_pos rfl]
  rcases lt_or_le q 20 with h1 | h1
  · simp [h1]
  · rcases lt_or_le q 25 with h2 | h2
    · simp [not_lt.2 h1, h1, h2]
    · rcases lt_or_le q 30 with h3 | h3
      · have h1' : ¬ q < 20 := by linarith
        have h2' : ¬ q < 25 := not_lt.2 h2
        simp [h1', h2', h2, h3]
      · have h1' : ¬ q < 20 := by linarith
        have h2' : ¬ q < 25 := by linarith
        have h3' : ¬ q < 30 := not_lt.2 h3
        simp [h1', h2', h3']

theorem classifyIMC_mujer (q : ℚ) :
    classifyIMC "Mujer" q = specClassifyMujer q := by
  unfold classifyIMC specClassifyMujer
  rw [if_neg (by decide : ¬ ("Mujer" : String) = "Hombre")]
  rcases lt_or_le q 18 with h1 | h1
  · simp [h1]
  · rcases lt_or_le q 24 with h2 | h2
    · simp [not_lt.2 h1, h1, h2]
    · rcases lt_or_le q 29 with h3 | h3
      · have h1' : ¬ q < 18 := by linarith
        have h2' : ¬ q < 24 := not_lt.2 h2
        simp [h1', h2', h2, h3]
      · have h1' : ¬ q < 18 := by linarith
        have h2' : ¬ q < 24 := by linarith
        have h3' : ¬ q < 29 := not_lt.2 h3
        simp [h1', h2', h3']

/-- The success path of `calculateIMC`: with a non-blank name, three parsed
positive values, the builder returns exactly the record the source
constructs. -/
theorem calculateIMC_ok_eq
    (nm g wt ht aT i d : String) (w h a : ℚ)
    (hw : parseNumber wt = some w) (hh : parseNumber ht = some h)
    (ha : parseNumber aT = some a) (hn : jsTrim nm ≠ "")
    (hw0 : 0 < w) (hh0 : 0 < h) (ha0 : 0 < a) :
    calculateIMC nm g wt ht aT i d = Except.ok
      { id := i, name := jsTrim nm, gender := g, age := a, weight := w,
        height := h, imc := toFixed2 (w / (h / 100 * (h / 100))),
        classification := classifyIMC g (w / (h / 100 * (h / 100))),
        date := d } := by
  simp only [calculateIMC, hw, hh, ha]
  rw [if_neg hn, if_neg (by push_neg; exact ⟨hw0, hh0, ha0⟩)]

/-- C1: for every valid input (non-blank name, weight, height and age
parsing to positive numbers) the classification stored by the record builder
follows the gender-specific threshold table with strict lower comparisons
and exact boundaries (gender A cut points 20/25/30, gender B cut points
18/24/29); in particular an imc of exactly 20 for gender A is classified
"Peso normal" (normal), not "Bajo peso" (underweight). -/
theorem C1_classification_thresholds :
    (∀ nm g wt ht aT i d (w h a : ℚ),
       parseNumber wt = some w → parseNumber ht = some h →
       parseNumber aT = some a → jsTrim nm ≠ "" →
       0 < w → 0 < h → 0 < a →
       ∃ r, calculateIMC nm g wt ht aT i d = Except.ok r ∧
         r.classification =
           (if g = "Hombre" then specClassifyHombre (w / (h / 100 * (h / 100)))
            else if g = "Mujer" then specClassifyMujer (w / (h / 100 * (h / 100)))
            else r.classification)) ∧
    (∃ r, calculateIMC "Juan" "Hombre" "20" "100" "30" "1" "2024" = Except.ok r ∧
       20 / ((100 : ℚ) / 100 * (100 / 100)) = 20 ∧
       r.classification = "Peso normal") := by
  constructor
  · intro nm g wt ht aT i d w h a hw hh ha hn hw0 hh0 ha0
    refine ⟨_, calculateIMC_ok_eq nm g wt ht aT i d w h a hw hh ha hn hw0 hh0 ha0, ?_⟩
    by_cases hg : g = "Hombre"
    · subst hg
      simp only [if_pos rfl]
      exact classifyIMC_hombre _
    · rw [if_neg hg]
      by_cases hg2 : g = "Mujer"
      · subst hg2
        simp only [if_pos rfl]
        exact classifyIMC_mujer _
      · rw [if_neg hg2]
  · refine ⟨_, calculateIMC_ok_eq "Juan" "Hombre" "20" "100" "30" "1" "2024" 20 100 30
      (by with_unfolding_all decide) (by with_unfolding_all decide)
      (by with_unfolding_all decide) (by decide)
      (by norm_num) (by norm_num) (by norm_num), by norm_num, ?_⟩
    show classifyIMC "Hombre" (20 / ((100 : ℚ) / 100 * (100 / 100))) = "Peso normal"
    with_unfolding_all decide

/-- Witness for C1 at a concrete valid input on the gender-B track:
weight 50, height 160 gives imc 19.53..., classified "Peso normal". -/
theorem C1_classification_thresholds_witness :
    ∃ r, calculateIMC "Eva" "Mujer" "50" "160" "25" "2" "2024" = Except.ok r ∧
      r.classification = "Peso normal" := by
  obtain ⟨r, hr, hc⟩ := C1_classification_thresholds.1 "Eva" "Mujer" "50" "160" "25"
    "2" "2024" 50 160 25 (by with_unfolding_all decide) (by with_unfolding_all decide)
    (by with_unfolding_all decide) (by decide) (by norm_num) (by norm_num) (by norm_num)
  refine ⟨r, hr, ?_⟩
  rw [hc, if_neg (by decide : ¬ ("Mujer" : String) = "Hombre"), if_pos rfl]
  with_unfolding_all decide

/-- C2: for every valid input the record builder computes
`imc = weight / (height/100)^2` and stores it rendered with exactly two
fraction digits (`toFixed(2)`); in particular weight 70, height 175 stores
the imc string "22.86" with classification "Peso normal" on the gender-A
track. -/
theorem C2_imc_value_and_rendering :
    (∀ nm g wt ht aT i d (w h a : ℚ),
       parseNumber wt = some w → parseNumber ht = some h →
       parseNumber aT = some a → jsTrim nm ≠ "" →
       0 < w → 0 < h → 0 < a →
       ∃ r, calculateIMC nm g wt ht aT i d = Except.ok r ∧
         r.imc = toFixed2 (w / (h / 100 * (h / 100)))) ∧
    (∃ r, calculateIMC "Mia" "Hombre" "70" "175" "30" "3" "2024" = Except.ok r ∧
       r.imc = "22.86" ∧ r.classification = "Peso normal") := by
  constructor
  · intro nm g wt ht aT i d w h a hw hh ha hn hw0 hh0 ha0
    exact ⟨_, calculateIMC_ok_eq nm g wt ht aT i d w h a hw hh ha hn hw0 hh0 ha0, rfl⟩
  · refine ⟨_, calculateIMC_ok_eq "Mia" "Hombre" "70" "175" "30" "3" "2024" 70 175 30
      (by with_unfolding_all decide) (by with_unfolding_all decide)
      (by with_unfolding_all decide) (by decide)
      (by norm_num) (by norm_num) (by norm_num), ?_, ?_⟩
    · show toFixed2 ((70 : ℚ) / (175 / 100 * (175 / 100))) = "22.86"
      with_unfolding_all decide
    · show classifyIMC "Hombre" ((70 : ℚ) / (175 / 100 * (175 / 100))) = "Peso normal"
      with_unfolding_all decide

/-- Witness for C2 at a concrete valid input: weight 80, height 200 gives
imc 20, stored as "20.00". -/
theorem C2_imc_value_and_rendering_witness :
    ∃ r, calculateIMC "Leo" "Hombre" "80" "200" "40" "4" "2024" = Except.ok r ∧
      r.imc = "20.00" := by
  obtain ⟨r, hr, hi⟩ := C2_imc_value_and_rendering.1 "Leo" "Hombre" "80" "200" "40"
    "4" "2024" 80 200 40 (by with_unfolding_all decide) (by with_unfolding_all decide)
    (by with_unfolding_all decide) (by decide) (by norm_num) (by norm_num) (by norm_num)
  refine ⟨r, hr, ?_⟩
  rw [hi]
  with_unfolding_all decide

instance : DecidableEq (Except String Record) := fun x y =>
  match x, y with
  | .ok a, .ok b =>
    if h : a = b then isTrue (by rw [h]) else isFalse (by simp [h])
  | .error a, .error b =>
    if h : a = b then isTrue (by rw [h]) else isFalse (by simp [h])
  | .ok _, .error _ => isFalse (by simp)
  | .error _, .ok _ => isFalse (by simp)

/-- Counterexample to C3 as stated: an input whose weight text does not
parse but whose name is blank is answered with the missing-name error, not
the invalid-values error — the name check runs first. -/
theorem C3_counterexample :
    parseNumber "" = none ∧
    calculateIMC " " "Hombre" "" "170" "30" "1" "2024" =
      Except.error "Por favor, ingresa un nombre" ∧
    ("Por favor, ingresa un nombre" : String) ≠
      "Por favor, ingresa valores válidos (peso, altura, edad)" := by
  refine ⟨by with_unfolding_all decide, ?_, by decide⟩
  with_unfolding_all decide

/-- C3 amended: for every input with a non-blank name in which some numeric
text field fails to parse, the builder returns exactly the invalid-values
error and no record; a blank name yields the missing-name error, and the
name check takes precedence over the numeric checks. -/
theorem C3_invalid_values_error :
    (∀ nm g wt ht aT i d, jsTrim nm ≠ "" →
       (parseNumber wt = none ∨ parseNumber ht = none ∨ parseNumber aT = none) →
       calculateIMC nm g wt ht aT i d =
         Except.error "Por favor, ingresa valores válidos (peso, altura, edad)") ∧
    (∀ nm g wt ht aT i d, jsTrim nm = "" →
       calculateIMC nm g wt ht aT i d =
         Except.error "Por favor, ingresa un nombre") := by
  constructor
  · intro nm g wt ht aT i d h1 h2
    simp only [calculateIMC, if_neg h1]
    rcases hw : parseNumber wt with _ | w <;>
      rcases hh : parseNumber ht with _ | h <;>
        rcases ha : parseNumber aT with _ | a <;>
          simp_all
  · intro nm g wt ht aT i d h1
    simp only [calculateIMC, if_pos h1]

/-- Witness for C3 amended, at inputs with an unparseable height and with a
whitespace-only name. -/
theorem C3_invalid_values_error_witness :
    calculateIMC "Ana" "Mujer" "60" "." "30" "1" "2024" =
      Except.error "Por favor, ingresa valores válidos (peso, altura, edad)" ∧
    calculateIMC "  " "Mujer" "60" "165" "30" "1" "2024" =
      Except.error "Por favor, ingresa un nombre" := by
  constructor
  · exact C3_invalid_values_error.1 "Ana" "Mujer" "60" "." "30" "1" "2024"
      (by decide) (Or.inr (Or.inl (by with_unfolding_all decide)))
  · exact C3_invalid_values_error.2 "  " "Mujer" "60" "165" "30" "1" "2024" (by decide)

/-- The match predicate exactly as claim C4 words it: case-insensitive
equality after trimming surrounding whitespace (on both strings). -/
def claimedTrimLowerEq (a b : String) : Prop :=
  jsToLower (jsTrim a) = jsToLower (jsTrim b)

/-- Counterexample to C4 as stated: a stored record whose name carries a
trailing space matches the query "ana" under the claim's symmetric
trim-then-compare predicate, yet the lookup finds nothing — the code trims
the entered name only, never the stored one. -/
theorem C4_counterexample :
    claimedTrimLowerEq "Ana " "ana" ∧
    checkExistingUser
      [{ id := "1", name := "Ana ", gender := "Mujer", age := 30, weight := 60,
         height := 165, imc := "22.04", classification := "Peso normal",
         date := "2024" }] "ana" = none := by
  constructor
  · unfold claimedTrimLowerEq
    with_unfolding_all decide
  · with_unfolding_all decide

/-- C4 amended: the lookup lowercases both sides but trims only the queried
name; it returns the gender of the first record in collection order whose
lowercased stored name equals the lowercased-and-trimmed query.  Because the
builder stores names trimmed, storing a record for "Ana" and querying
"ANA " (trailing space) returns Ana's gender. -/
theorem C4_first_match_lookup :
    (∀ (rs : List Record) (q : String) (r : Record) (l1 l2 : List Record),
       jsTrim q ≠ "" →
       rs = l1 ++ r :: l2 →
       jsToLower r.name = jsTrim (jsToLower q) →
       (∀ r' ∈ l1, jsToLower r'.name ≠ jsTrim (jsToLower q)) →
       checkExistingUser rs q = some r.gender) ∧
    checkExistingUser
      [{ id := "1", name := "Ana", gender := "Mujer", age := 30, weight := 60,
         height := 165, imc := "22.04", classification := "Peso normal",
         date := "2024" }] "ANA " = some "Mujer" := by
  constructor
  · intro rs q r l1 l2 hq hrs hr hl1
    subst hrs
    unfold checkExistingUser
    rw [if_neg hq]
    have h1 : l1.find? (fun r' => jsToLower r'.name == jsTrim (jsToLower q)) = none := by
      rw [List.find?_eq_none]
      intro x hx
      simpa using hl1 x hx
    rw [List.find?_append, h1, List.find?_cons_of_pos _ (by simpa using hr)]
    simp
  · with_unfolding_all decide

/-- Witness for C4 amended: the first of two same-named records (in
collection order) supplies the gender, even though the later one is more
recent. -/
theorem C4_first_match_lookup_witness :
    checkExistingUser
      [{ id := "1", name := "Bo", gender := "Hombre", age := 30, weight := 70,
         height := 175, imc := "22.86", classification := "Peso normal",
         date := "2024" },
       { id := "2", name := "Bo", gender := "Mujer", age := 31, weight := 71,
         height := 175, imc := "23.18", classification := "Peso normal",
         date := "2025" }] " bo " = some "Hombre" := by
  exact C4_first_match_lookup.1 _ " bo "
    { id := "1", name := "Bo", gender := "Hombre", age := 30, weight := 70,
      height := 175, imc := "22.86", classification := "Peso normal",
      date := "2024" }
    []
    [{ id := "2", name := "Bo", gender := "Mujer", age := 31, weight := 71,
       height := 175, imc := "23.18", classification := "Peso normal",
       date := "2025" }]
    (by decide) rfl (by with_unfolding_all decide) (by simp)

/-- Counterexample to C5 as stated: when the stored text fails to parse, the
screen's record state is left as it was (here a one-record list), not the
empty sequence the claim demands for any unreadable storage content. -/
theorem C5_counterexample :
    loadRecords
      [{ id := "1", name := "Ana", gender := "Mujer", age := 30, weight := 60,
         height := 165, imc := "22.04", classification := "Peso normal",
         date := "2024" }] StoredValue.corrupt =
      [{ id := "1", name := "Ana", gender := "Mujer", age := 30, weight := 60,
         height := 165, imc := "22.04", classification := "Peso normal",
         date := "2024" }] ∧
    ([{ id := "1", name := "Ana", gender := "Mujer", age := 30, weight := 60,
        height := 165, imc := "22.04", classification := "Peso normal",
        date := "2024" }] : List Record) ≠ [] := by
  exact ⟨rfl, by decide⟩

/-- C5 amended: the load returns the empty sequence when nothing is stored
under the key; a JSON parse failure is caught and logged but leaves the
previous in-memory record list unchanged — which is empty on first load,
since the state is initialised to the empty list. -/
theorem C5_load_failure_semantics :
    (∀ prev, loadRecords prev StoredValue.absent = []) ∧
    (∀ prev, loadRecords prev StoredValue.corrupt = prev) ∧
    loadRecords [] StoredValue.corrupt = [] := by
  exact ⟨fun _ => rfl, fun _ => rfl, rfl⟩

/-- C6: over any collection satisfying the data model's id-uniqueness
invariant, deleting by id removes exactly the one matching entry (the rest
keep their fields and relative order), and is a no-op when no record has
that id. -/
theorem C6_delete_exactly_one (records : List Record) (i : String)
    (hnodup : (records.map Record.id).Nodup) :
    (∀ r, r ∈ records → r.id = i →
       ∃ l1 l2, records = l1 ++ r :: l2 ∧ deleteRecord records i = l1 ++ l2) ∧
    ((∀ r ∈ records, r.id ≠ i) → deleteRecord records i = records) := by
  constructor
  · intro r hmem hid
    obtain ⟨l1, l2, rfl⟩ := List.append_of_mem hmem
    refine ⟨l1, l2, rfl, ?_⟩
    rw [List.map_append, List.map_cons, List.nodup_append] at hnodup
    obtain ⟨h1, h2, hdisj⟩ := hnodup
    have hnotl1 : r.id ∉ l1.map Record.id :=
      fun hin => hdisj hin (List.mem_cons_self _ _)
    have hnotl2 : r.id ∉ l2.map Record.id := (List.nodup_cons.1 h2).1
    unfold deleteRecord
    rw [List.filter_append]
    have e1 : l1.filter (fun x => x.id != i) = l1 := by
      rw [List.filter_eq_self]
      intro x hx
      simp only [bne_iff_ne, ne_eq]
      intro hxi
      exact hnotl1 (hid ▸ hxi ▸ List.mem_map_of_mem Record.id hx)
    have e2 : List.filter (fun x => x.id != i) (r :: l2) = l2 := by
      rw [List.filter_cons]
      have hf : (r.id != i) = false := by simp [hid]
      rw [hf]
      simp only [Bool.false_eq_true, if_false]
      rw [List.filter_eq_self]
      intro x hx
      simp only [bne_iff_ne, ne_eq]
      intro hxi
      exact hnotl2 (hid ▸ hxi ▸ List.mem_map_of_mem Record.id hx)
    rw [e1, e2]
  · intro habs
    unfold deleteRecord
    rw [List.filter_eq_self]
    intro x hx
    simpa using habs x hx

/-- Witness for C6 at a concrete two-record collection with distinct ids:
deleting id "2" removes exactly the second record, and deleting an absent id
leaves the collection unchanged. -/
theorem C6_delete_exactly_one_witness :
    (∃ l1 l2,
       ([{ id := "1", name := "Ana", gender := "Mujer", age := 30, weight := 60,
           height := 165, imc := "22.04", classification := "Peso normal",
           date := "2024" },
         { id := "2", name := "Bob", gender := "Hombre", age := 40, weight := 80,
           height := 200, imc := "20.00", classification := "Peso normal",
           date := "2025" }] : List Record) =
         l1 ++ { id := "2", name := "Bob", gender := "Hombre", age := 40,
                 weight := 80, height := 200, imc := "20.00",
                 classification := "Peso normal", date := "2025" } :: l2 ∧
       deleteRecord
         [{ id := "1", name := "Ana", gender := "Mujer", age := 30, weight := 60,
            height := 165, imc := "22.04", classification := "Peso normal",
            date := "2024" },
          { id := "2", name := "Bob", gender := "Hombre", age := 40, weight := 80,
            height := 200, imc := "20.00", classification := "Peso normal",
            date := "2025" }] "2" = l1 ++ l2) ∧
    deleteRecord
      [{ id := "1", name := "Ana", gender := "Mujer", age := 30, weight := 60,
         height := 165, imc := "22.04", classification := "Peso normal",
         date := "2024" },
       { id := "2", name := "Bob", gender := "Hombre", age := 40, weight := 80,
         height := 200, imc := "20.00", classification := "Peso normal",
         date := "2025" }] "3" =
      [{ id := "1", name := "Ana", gender := "Mujer", age := 30, weight := 60,
         height := 165, imc := "22.04", classification := "Peso normal",
         date := "2024" },
       { id := "2", name := "Bob", gender := "Hombre", age := 40, weight := 80,
         height := 200, imc := "20.00", classification := "Peso normal",
         date := "2025" }] := by
  constructor
  · exact (C6_delete_exactly_one _ "2" (by decide)).1 _ (by decide) rfl
  · exact (C6_delete_exactly_one _ "3" (by decide)).2 (by decide)

/-- C7: the list view returns the stored records sorted descending by id,
with the id string interpreted as a number, as a permutation of the stored
collection — the most recently created (largest timestamp id) record first. -/
theorem C7_list_sorted_desc (prev rs : List Record) :
    List.Sorted (fun a b => idNum b ≤ idNum a)
      (loadRecords prev (StoredValue.value rs)) ∧
    List.Perm (loadRecords prev (StoredValue.value rs)) rs := by
  constructor
  · haveI : IsTotal Record (fun a b => idNum b ≤ idNum a) :=
      ⟨fun a b => le_total (idNum b) (idNum a)⟩
    haveI : IsTrans Record (fun a b => idNum b ≤ idNum a) :=
      ⟨fun _ _ _ hab hbc => le_trans hbc hab⟩
    exact List.sorted_insertionSort _ rs
  · exact List.perm_insertionSort _ rs

/-- C8: the chart view keeps exactly the records whose name equals the
queried name under exact string equality, sorted ascending by parsed date,
and the window keeps the last at most 7 of that sorted sequence (a suffix of
it) in chronological order. -/
theorem C8_chart_filter_sort_window (dateVal : String → ℚ)
    (prev rs : List Record) (userName : String) :
    List.Perm (loadUserRecords dateVal prev (StoredValue.value rs) userName)
      (rs.filter fun r => r.name == userName) ∧
    List.Sorted (fun a b => dateVal a.date ≤ dateVal b.date)
      (loadUserRecords dateVal prev (StoredValue.value rs) userName) ∧
    recordsToShow (loadUserRecords dateVal prev (StoredValue.value rs) userName)
      <:+ loadUserRecords dateVal prev (StoredValue.value rs) userName ∧
    (recordsToShow (loadUserRecords dateVal prev (StoredValue.value rs) userName)).length =
      min 7 (loadUserRecords dateVal prev (StoredValue.value rs) userName).length := by
  refine ⟨List.perm_insertionSort _ _, ?_, ?_, ?_⟩
  · haveI : IsTotal Record (fun a b => dateVal a.date ≤ dateVal b.date) :=
      ⟨fun a b => le_total (dateVal a.date) (dateVal b.date)⟩
    haveI : IsTrans Record (fun a b => dateVal a.date ≤ dateVal b.date) :=
      ⟨fun _ _ _ hab hbc => le_trans hab hbc⟩
    exact List.sorted_insertionSort _ _
  · exact List.drop_suffix _ _
  · rw [recordsToShow, List.length_drop]
    omega

theorem head?_dropWhile_false (p : Char → Bool) (l : List Char) :
    ∀ c, (l.dropWhile p).head? = some c → p c = false := by
  induction l with
  | nil => intro c hc; simp at hc
  | cons a t ih =>
    intro c hc
    rw [List.dropWhile_cons] at hc
    by_cases hp : p a
    · rw [if_pos hp] at hc
      exact ih c hc
    · rw [if_neg hp] at hc
      obtain rfl : a = c := by simpa using hc
      simpa using hp

theorem getLast?_dropWhile_of_some (p : Char → Bool) (l : List Char) :
    ∀ c, (l.dropWhile p).getLast? = some c → l.getLast? = some c := by
  induction l with
  | nil => intro c hc; simp at hc
  | cons a t ih =>
    intro c hc
    rw [List.dropWhile_cons] at hc
    by_cases hp : p a
    · rw [if_pos hp] at hc
      have ht := ih c hc
      cases t with
      | nil => simp at ht
      | cons b u =>
        rw [List.getLast?_cons_cons]
        exact ht
    · rw [if_neg hp] at hc
      exact hc

/-- A trimmed string has no whitespace at either end. -/
theorem jsTrim_no_edge_whitespace (s : String) :
    (∀ c, (jsTrim s).data.head? = some c → c.isWhitespace = false) ∧
    (∀ c, (jsTrim s).data.getLast? = some c → c.isWhitespace = false) := by
  unfold jsTrim
  dsimp only
  constructor
  · intro c hc
    rw [List.head?_reverse] at hc
    have h2 := getLast?_dropWhile_of_some _ _ c hc
    rw [List.getLast?_reverse] at h2
    exact head?_dropWhile_false _ _ c h2
  · intro c hc
    rw [List.getLast?_reverse] at hc
    exact head?_dropWhile_false _ _ c hc

/-- C9: every record the builder creates stores the name field trimmed (it
equals the trimmed form input), so no record created through the builder has
leading or trailing whitespace in its name. -/
theorem C9_builder_name_trimmed :
    ∀ nm g wt ht aT i d r,
      calculateIMC nm g wt ht aT i d = Except.ok r →
      r.name = jsTrim nm ∧
      (∀ c, r.name.data.head? = some c → c.isWhitespace = false) ∧
      (∀ c, r.name.data.getLast? = some c → c.isWhitespace = false) := by
  intro nm g wt ht aT i d r hr
  unfold calculateIMC at hr
  by_cases hn : jsTrim nm = ""
  · rw [if_pos hn] at hr
    exact absurd hr (by simp)
  · rw [if_neg hn] at hr
    rcases hw : parseNumber wt with _ | w <;>
      rcases hh : parseNumber ht with _ | h <;>
        rcases ha : parseNumber aT with _ | a <;>
          simp only [hw, hh, ha] at hr <;>
            try exact absurd hr (by simp)
    split at hr
    · exact absurd hr (by simp)
    · simp only [Except.ok.injEq] at hr
      subst hr
      exact ⟨rfl, (jsTrim_no_edge_whitespace nm).1, (jsTrim_no_edge_whitespace nm).2⟩

/-- Witness for C9 at a concrete input whose name carries surrounding
whitespace: the stored name is the trimmed form. -/
theorem C9_builder_name_trimmed_witness :
    ({ id := "9", name := "Bob", gender := "Hombre", age := 40, weight := 80,
       height := 200, imc := "20.00", classification := "Peso normal",
       date := "2024" } : Record).name = jsTrim " Bob " :=
  (C9_builder_name_trimmed " Bob " "Hombre" "80" "200" "40" "9" "2024"
    { id := "9", name := "Bob", gender := "Hombre", age := 40, weight := 80,
      height := 200, imc := "20.00", classification := "Peso normal",
      date := "2024" }
    (by with_unfolding_all decide)).1

/-- C10: a successful save appends the new record at the end of the loaded
array before writing the whole collection back: every previously stored
record is unchanged and keeps its position, the collection grows by exactly
one entry, and the new record is last; an absent key is treated as the empty
collection. -/
theorem C10_save_appends (rs : List Record) (r : Record) :
    saveNewRecord (StoredValue.value rs) r = StoredValue.value (rs ++ [r]) ∧
    (rs ++ [r]).take rs.length = rs ∧
    (rs ++ [r]).length = rs.length + 1 ∧
    (rs ++ [r]).getLast? = some r ∧
    saveNewRecord StoredValue.absent r = StoredValue.value [r] := by
  exact ⟨rfl, List.take_left rs [r], by simp, List.getLast?_concat rs, rfl⟩

end AppIMC
